import Mathlib

/-!
Verification of the update-modifier execution engine (the `$inc` operator)
of this repository, against its natural-language specification.

The repository snapshot contains the unit-test file
`src/mongo/db/ops/modifier_inc_test.cpp` but not the implementation
translation units (`modifier_inc.cpp`, the mutable-document tree, the log
builder).  The definitions below are therefore modelled from the spec
(sections 3, 4.2, 4.3, 4.4, 4.5), with every behaviour cross-checked against
the assertions of the test file, which is the authoritative code present.

Modelling choices, stated once here:
* machine integers are `Int` with explicit 32-bit range checks where the
  spec demands them (the promotion/overflow rules);
* double-precision payloads are modelled as exact rationals `ℚ`; the spec's
  scenarios and the tests only exercise doubles at integral values, where
  IEEE arithmetic is exact, and no claim depends on rounding;
* the stateful C++ objects (mutable document, modifier instance, log
  builder) become explicit state passing: `prepare` returns the (unchanged)
  document next to its result so that "the tree is untouched" is statable.
-/

/-- BSON-style type tag of an element, per the spec's data model
(section 3): 32-bit integer, 64-bit integer, double, string, object,
array, plus boolean standing for the spec's other-scalar bucket. -/
inductive BsonType where
  | tInt
  | tLong
  | tDouble
  | tBool
  | tString
  | tObject
  | tArray
deriving DecidableEq, Repr

/-- Modelled from the spec: an element's value payload (section 3).
Objects own their children as a field-name/value list in insertion order;
array children are positional. -/
inductive BsonValue where
  | vInt : Int → BsonValue
  | vLong : Int → BsonValue
  | vDouble : ℚ → BsonValue
  | vBool : Bool → BsonValue
  | vString : String → BsonValue
  | vObject : List (String × BsonValue) → BsonValue
  | vArray : List BsonValue → BsonValue

/-- Type tag of a value. -/
def bsonTypeTag : BsonValue → BsonType
  | .vInt _ => .tInt
  | .vLong _ => .tLong
  | .vDouble _ => .tDouble
  | .vBool _ => .tBool
  | .vString _ => .tString
  | .vObject _ => .tObject
  | .vArray _ => .tArray

/-- A numeric scalar: the domain of the increment operator's operand and of
its target field (spec section 4.4). -/
inductive NumVal where
  | vInt : Int → NumVal
  | vLong : Int → NumVal
  | vDouble : ℚ → NumVal
deriving DecidableEq

/-- Type tag of a numeric scalar. -/
def NumVal.typeTag : NumVal → BsonType
  | .vInt _ => .tInt
  | .vLong _ => .tLong
  | .vDouble _ => .tDouble

/-- Re-embed a numeric scalar as a document value. -/
def NumVal.toBson : NumVal → BsonValue
  | .vInt a => .vInt a
  | .vLong a => .vLong a
  | .vDouble q => .vDouble q

/-- View a document value as a numeric scalar, when it is one. -/
def asNum : BsonValue → Option NumVal
  | .vInt a => some (.vInt a)
  | .vLong a => some (.vLong a)
  | .vDouble q => some (.vDouble q)
  | _ => none

/-- Exact numeric value of a numeric scalar, as a rational. -/
def NumVal.toRat : NumVal → ℚ
  | .vInt a => (a : ℚ)
  | .vLong a => (a : ℚ)
  | .vDouble q => q

/-- Encoded byte width of a numeric scalar in the wire format the spec
treats as given (section 1): int32 is 4 bytes, int64 and double 8. -/
def numSize : NumVal → Nat
  | .vInt _ => 4
  | .vLong _ => 8
  | .vDouble _ => 8

/-- Rank of a numeric type in the promotion lattice
32-bit-integer < 64-bit-integer < double (spec section 4.4). -/
def typeRank : BsonType → Nat
  | .tInt => 0
  | .tLong => 1
  | .tDouble => 2
  | _ => 3

/-- The more promoted of two numeric types in the lattice. -/
def promoted (a b : BsonType) : BsonType :=
  if typeRank a ≤ typeRank b then b else a

/-- Whether the second type is a strict widening of the first in the
promotion lattice (spec section 4.2, widening-compatible promotion). -/
def isWidening (a b : BsonType) : Bool :=
  typeRank a < typeRank b

def int32Min : Int := -2147483648

def int32Max : Int := 2147483647

/-- Whether an unbounded integer fits the 32-bit signed range. -/
def fitsInt32 (n : Int) : Bool :=
  decide (int32Min ≤ n ∧ n ≤ int32Max)

/-- Modelled from the spec: the sum `existing + operand` of the increment
operator (section 4.4 step 2).  Two 32-bit integers stay 32-bit when the
mathematical sum fits the signed range and spill to 64-bit otherwise
(never wrapped, never promoted directly to double); any other pair takes
the more promoted of the two types, so a double absorbs everything. -/
def incSum : NumVal → NumVal → NumVal
  | .vInt a, .vInt b =>
      if fitsInt32 (a + b) then .vInt (a + b) else .vLong (a + b)
  | .vInt a, .vLong b => .vLong (a + b)
  | .vInt a, .vDouble q => .vDouble ((a : ℚ) + q)
  | .vLong a, .vInt b => .vLong (a + b)
  | .vLong a, .vLong b => .vLong (a + b)
  | .vLong a, .vDouble q => .vDouble ((a : ℚ) + q)
  | .vDouble q, .vInt b => .vDouble (q + (b : ℚ))
  | .vDouble q, .vLong b => .vDouble (q + (b : ℚ))
  | .vDouble q, .vDouble r => .vDouble (q + r)

/-- Modelled from the spec: the mutable document tree (section 3) reduced
to what the claims observe: the root object's fields and the tree-wide
in-place-eligible flag, true until a layout-changing mutation occurs. -/
structure Document where
  fields : List (String × BsonValue)
  inPlaceMode : Bool

/-- Accessor named after the test file's `isInPlaceModeEnabled`. -/
def Document.isInPlaceModeEnabled (d : Document) : Bool :=
  d.inPlaceMode

/-- Outcome of navigating a path (spec section 4.2): the terminal element,
a creatable missing field, or a traversal through a non-object. -/
inductive Resolved where
  | found : BsonValue → Resolved
  | missing : Resolved
  | conflict : Resolved

/-- First binding of a field name in an object's field list. -/
def lookupField : List (String × BsonValue) → String → Option BsonValue
  | [], _ => none
  | (k, v) :: rest, name => if k = name then some v else lookupField rest name

/-- Modelled from the spec: `Navigate(root, path)` (section 4.2).  Walks
object fields segment by segment; an absent field under an object is a
creatable miss, while descending into a non-object is a type conflict. -/
def resolvePath : List String → BsonValue → Resolved
  | [], v => .found v
  | s :: rest, .vObject fs =>
      match lookupField fs s with
      | some v => resolvePath rest v
      | none => .missing
  | _ :: _, _ => .conflict

/-- Rebind a field name in an object's field list, appending when absent. -/
def setField : List (String × BsonValue) → String → BsonValue → List (String × BsonValue)
  | [], name, v => [(name, v)]
  | (k, w) :: rest, name, v =>
      if k = name then (name, v) :: rest else (k, w) :: setField rest name v

/-- Modelled from the spec: writing a value at a path, creating missing
intermediate objects (sections 4.2 Create-missing and Set-value).  On a
traversal conflict the tree is returned unchanged; the modifier never
reaches this case because prepare fails first. -/
def setPath : List String → BsonValue → BsonValue → BsonValue
  | [], _, nv => nv
  | s :: rest, .vObject fs, nv =>
      match lookupField fs s with
      | some w => .vObject (setField fs s (setPath rest w nv))
      | none => .vObject (fs ++ [(s, setPath rest (.vObject []) nv)])
  | _ :: _, other, _ => other

/-- Fields of an object value (empty for non-objects). -/
def objFields : BsonValue → List (String × BsonValue)
  | .vObject fs => fs
  | _ => []

/-- Error kinds of the engine (spec section 7). -/
inductive ModError where
  | invalidOperandType
  | pathTypeConflict
  | pathConflict
  | malformedPath
deriving DecidableEq, Repr

/-- Modelled from the spec: the transient per-prepare state of the
increment modifier (sections 3 and 4.4): the resolved path, the existing
numeric value when the field was present, the computed new value, and the
no-op flag reported through the execution info. -/
structure PrepState where
  path : List String
  existing : Option NumVal
  newValue : NumVal
  noOp : Bool

/-- Modelled from the spec: the log builder (section 4.5), reduced to the
ordered list of `$set` entries (dotted path, final value) it accumulates. -/
structure LogBuilder where
  setEntries : List (String × BsonValue)

namespace ModifierInc

/-- Modelled from the spec: `initialize(operandValue)` (section 4.3):
accept exactly the numeric scalar operands, rejecting everything else with
`InvalidOperandType`, before any document access. -/
def init (operand : BsonValue) : Except ModError NumVal :=
  match asNum operand with
  | some n => Except.ok n
  | none => Except.error ModError.invalidOperandType

/-- Whether initialize accepts an operand. -/
def initOk (operand : BsonValue) : Bool :=
  match init operand with
  | Except.ok _ => true
  | Except.error _ => false

/-- Modelled from the spec: `prepare` of the increment modifier
(section 4.4).  Resolves the path; an absent field takes the operand
itself with no-op false; a present numeric field takes the promoted sum
with no-op true exactly when the sum equals the existing value; a present
non-numeric field or a traversal conflict fails with `PathTypeConflict`.
The document is returned alongside to state that prepare never mutates. -/
def prepare (operand : NumVal) (path : List String) (doc : Document) :
    Document × Except ModError PrepState :=
  match resolvePath path (BsonValue.vObject doc.fields) with
  | Resolved.found v =>
      match asNum v with
      | some e =>
          let sum := incSum e operand
          (doc, Except.ok { path := path, existing := some e, newValue := sum,
                            noOp := decide (sum = e) })
      | none => (doc, Except.error ModError.pathTypeConflict)
  | Resolved.missing =>
      (doc, Except.ok { path := path, existing := none, newValue := operand,
                        noOp := false })
  | Resolved.conflict => (doc, Except.error ModError.pathTypeConflict)

/-- Modelled from the spec: in-place set is legal when the new value's type
tag is identical to the old one or is a widening-compatible promotion whose
encoded size equals the prior size (section 4.2). -/
def inPlaceCompatible (old new : NumVal) : Bool :=
  (old.typeTag == new.typeTag || isWidening old.typeTag new.typeTag)
    && (numSize old == numSize new)

/-- Modelled from the spec: `apply` (sections 4.2 and 4.4).  Creates the
field when it was absent (a layout change, so in-place mode is lost);
otherwise overwrites it, keeping in-place mode only for a size-preserving
compatible write. -/
def apply (st : PrepState) (doc : Document) : Document :=
  match st.existing with
  | none =>
      { fields := objFields (setPath st.path (BsonValue.vObject doc.fields) st.newValue.toBson),
        inPlaceMode := false }
  | some old =>
      { fields := objFields (setPath st.path (BsonValue.vObject doc.fields) st.newValue.toBson),
        inPlaceMode := doc.inPlaceMode && inPlaceCompatible old st.newValue }

/-- Modelled from the spec: `log` (sections 4.4 and 4.5): append one
equivalent assignment of the field's full dotted path to its final value,
taken from the prepared state, never from the document. -/
def log (st : PrepState) (lb : LogBuilder) : LogBuilder :=
  { setEntries := lb.setEntries ++ [(String.intercalate "." st.path, st.newValue.toBson)] }

end ModifierInc

/-- Prepare, discarding the unchanged document. -/
def runPrepare (operand : NumVal) (path : List String) (doc : Document) :
    Except ModError PrepState :=
  (ModifierInc.prepare operand path doc).2

/-- Prepare then apply; `none` when prepare fails. -/
def runApply (operand : NumVal) (path : List String) (doc : Document) :
    Option Document :=
  match runPrepare operand path doc with
  | Except.ok st => some (ModifierInc.apply st doc)
  | Except.error _ => none

/-- Prepare, apply, then read the target field back. -/
def readBack (operand : NumVal) (path : List String) (doc : Document) :
    Option BsonValue :=
  match runApply operand path doc with
  | some d =>
      match resolvePath path (BsonValue.vObject d.fields) with
      | Resolved.found v => some v
      | _ => none
  | none => none

/-- Exact numeric value of a document value, when numeric. -/
def numRatOfB (v : BsonValue) : Option ℚ :=
  (asNum v).map NumVal.toRat

/-- Modelled from the spec: a reusable modifier instance (sections 3
and 9): the immutable operand plus the transient last-prepared state that
the next prepare overwrites wholesale. -/
structure IncModInstance where
  operand : NumVal
  lastPrepared : Option PrepState

/-- Prepare through a modifier instance, overwriting its transient state. -/
def prepareM (m : IncModInstance) (path : List String) (doc : Document) :
    IncModInstance × Except ModError Unit :=
  match runPrepare m.operand path doc with
  | Except.ok st => ({ m with lastPrepared := some st }, Except.ok ())
  | Except.error e => ({ m with lastPrepared := none }, Except.error e)

/-- Apply through a modifier instance, using its last-prepared state. -/
def applyM (m : IncModInstance) (doc : Document) : Document :=
  match m.lastPrepared with
  | some st => ModifierInc.apply st doc
  | none => doc

/-- One prepare/apply round of a modifier instance on one document,
returning the updated instance and the resulting document. -/
def runOn (m : IncModInstance) (path : List String) (doc : Document) :
    IncModInstance × Document :=
  let m2 := (prepareM m path doc).1
  (m2, applyM m2 doc)

/-- The overflow exception of the promotion rule: both sides 32-bit
integers whose mathematical sum leaves the signed 32-bit range. -/
def int32OverflowCase : NumVal → NumVal → Bool
  | .vInt a, .vInt b => !fitsInt32 (a + b)
  | _, _ => false

/-- Whether a numeric scalar is in the integer (int32/int64) domain. -/
def isIntTag : NumVal → Bool
  | .vInt _ => true
  | .vLong _ => true
  | .vDouble _ => false

example : incSum (NumVal.vInt 1) (NumVal.vInt 2) = NumVal.vInt 3 := by decide

example : incSum (NumVal.vInt 2147483647) (NumVal.vInt 1) = NumVal.vLong 2147483648 := by decide

example :
    runApply (NumVal.vInt 1) ["a"] { fields := [], inPlaceMode := true } =
      some { fields := [("a", BsonValue.vInt 1)], inPlaceMode := false } := rfl

/-- Rebinding a key makes it visible to lookup. -/
theorem lookup_setField_self (fs : List (String × BsonValue)) (k : String) (v : BsonValue) :
    lookupField (setField fs k v) k = some v := by
  induction fs with
  | nil => simp [setField, lookupField]
  | cons hd tl ih =>
      obtain ⟨k0, w0⟩ := hd
      by_cases hk : k0 = k
      · subst hk
        simp [setField, lookupField]
      · simp [setField, lookupField, hk, ih]

/-- Appending a fresh binding makes it visible to lookup. -/
theorem lookup_append_self (fs : List (String × BsonValue)) (k : String) (v : BsonValue)
    (h : lookupField fs k = none) :
    lookupField (fs ++ [(k, v)]) k = some v := by
  induction fs with
  | nil => simp [lookupField]
  | cons hd tl ih =>
      obtain ⟨k0, w0⟩ := hd
      by_cases hk : k0 = k
      · subst hk
        simp [lookupField] at h
      · simp [lookupField, hk] at h ⊢
        exact ih h

/-- Navigation inside an empty object never hits a type conflict. -/
theorem resolve_empty_not_conflict (p : List String) :
    resolvePath p (BsonValue.vObject []) ≠ Resolved.conflict := by
  cases p with
  | nil => simp [resolvePath]
  | cons s rest => simp [resolvePath, lookupField]

/-- Get-set round trip: writing through a path that does not conflict and
reading it back yields the written value. -/
theorem resolve_setPath (p : List String) (root v : BsonValue)
    (h : resolvePath p root ≠ Resolved.conflict) :
    resolvePath p (setPath p root v) = Resolved.found v := by
  induction p generalizing root with
  | nil => simp [resolvePath, setPath]
  | cons s rest ih =>
      cases root with
      | vObject fs =>
          cases hl : lookupField fs s with
          | some w =>
              have hres : resolvePath (s :: rest) (BsonValue.vObject fs) = resolvePath rest w := by
                simp [resolvePath, hl]
              rw [hres] at h
              simp only [setPath, hl]
              rw [resolvePath, lookup_setField_self fs s (setPath rest w v)]
              exact ih w h
          | none =>
              simp only [setPath, hl]
              rw [resolvePath, lookup_append_self fs s _ hl]
              exact ih _ (resolve_empty_not_conflict rest)
      | vInt a => simp [resolvePath] at h
      | vLong a => simp [resolvePath] at h
      | vDouble q => simp [resolvePath] at h
      | vBool b => simp [resolvePath] at h
      | vString str => simp [resolvePath] at h
      | vArray es => simp [resolvePath] at h

/-- Writing through a nonempty path keeps the root an object, so wrapping
its extracted fields back into an object is the identity. -/
theorem obj_setPath (s : String) (rest : List String)
    (fs : List (String × BsonValue)) (v : BsonValue) :
    BsonValue.vObject (objFields (setPath (s :: rest) (BsonValue.vObject fs) v)) =
      setPath (s :: rest) (BsonValue.vObject fs) v := by
  cases hl : lookupField fs s with
  | some w => simp [setPath, hl, objFields]
  | none => simp [setPath, hl, objFields]

/-- Prepare on a present numeric target computes the promoted sum and the
no-op flag, touching nothing else. -/
theorem prepare_found (operand : NumVal) (p : List String) (doc : Document)
    (v : BsonValue) (e : NumVal)
    (hres : resolvePath p (BsonValue.vObject doc.fields) = Resolved.found v)
    (hnum : asNum v = some e) :
    runPrepare operand p doc =
      Except.ok { path := p, existing := some e, newValue := incSum e operand,
                  noOp := decide (incSum e operand = e) } := by
  simp [runPrepare, ModifierInc.prepare, hres, hnum]

/-- Prepare on an absent target takes the operand itself with no-op false. -/
theorem prepare_missing (operand : NumVal) (p : List String) (doc : Document)
    (hres : resolvePath p (BsonValue.vObject doc.fields) = Resolved.missing) :
    runPrepare operand p doc =
      Except.ok { path := p, existing := none, newValue := operand, noOp := false } := by
  simp [runPrepare, ModifierInc.prepare, hres]

/-- Reading the target back after apply yields the prepared new value,
whenever the path did not conflict and is nonempty. -/
theorem apply_readBack (st : PrepState) (doc : Document) (s : String) (rest : List String)
    (hp : st.path = s :: rest)
    (h : resolvePath (s :: rest) (BsonValue.vObject doc.fields) ≠ Resolved.conflict) :
    resolvePath (s :: rest)
        (BsonValue.vObject (ModifierInc.apply st doc).fields) =
      Resolved.found st.newValue.toBson := by
  have hfields : (ModifierInc.apply st doc).fields =
      objFields (setPath st.path (BsonValue.vObject doc.fields) st.newValue.toBson) := by
    cases hex : st.existing with
    | none => simp [ModifierInc.apply, hex]
    | some old => simp [ModifierInc.apply, hex]
  rw [hfields, hp, obj_setPath]
  exact resolve_setPath (s :: rest) (BsonValue.vObject doc.fields) st.newValue.toBson h

/-- The increment sum's type is never less promoted than the existing
value's type. -/
theorem incSum_rank_mono (e d : NumVal) :
    typeRank e.typeTag ≤ typeRank (incSum e d).typeTag := by
  cases e with
  | vInt a =>
      cases d with
      | vInt b =>
          by_cases hf : fitsInt32 (a + b) = true
          · simp [incSum, hf, NumVal.typeTag, typeRank]
          · simp [incSum, hf, NumVal.typeTag, typeRank]
      | vLong b => simp [incSum, NumVal.typeTag, typeRank]
      | vDouble q => simp [incSum, NumVal.typeTag, typeRank]
  | vLong a =>
      cases d with
      | vInt b => simp [incSum, NumVal.typeTag, typeRank]
      | vLong b => simp [incSum, NumVal.typeTag, typeRank]
      | vDouble q => simp [incSum, NumVal.typeTag, typeRank]
  | vDouble q =>
      cases d with
      | vInt b => simp [incSum, NumVal.typeTag, typeRank]
      | vLong b => simp [incSum, NumVal.typeTag, typeRank]
      | vDouble r => simp [incSum, NumVal.typeTag, typeRank]

/-- Under a never-demoting write, in-place compatibility is exactly
size preservation. -/
theorem inPlaceCompatible_iff_size (old new : NumVal)
    (h : typeRank old.typeTag ≤ typeRank new.typeTag) :
    ModifierInc.inPlaceCompatible old new = (numSize old == numSize new) := by
  cases old with
  | vInt a =>
      cases new with
      | vInt b => simp [ModifierInc.inPlaceCompatible, NumVal.typeTag, isWidening, typeRank, numSize]
      | vLong b => simp [ModifierInc.inPlaceCompatible, NumVal.typeTag, isWidening, typeRank, numSize]
      | vDouble q => simp [ModifierInc.inPlaceCompatible, NumVal.typeTag, isWidening, typeRank, numSize]
  | vLong a =>
      cases new with
      | vInt b => simp [NumVal.typeTag, typeRank] at h
      | vLong b => simp [ModifierInc.inPlaceCompatible, NumVal.typeTag, isWidening, typeRank, numSize]
      | vDouble q => simp [ModifierInc.inPlaceCompatible, NumVal.typeTag, isWidening, typeRank, numSize]
  | vDouble q =>
      cases new with
      | vInt b => simp [NumVal.typeTag, typeRank] at h
      | vLong b => simp [NumVal.typeTag, typeRank] at h
      | vDouble r => simp [ModifierInc.inPlaceCompatible, NumVal.typeTag, isWidening, typeRank, numSize]

/-- Two numeric scalars are equal exactly when they agree in type tag and
in exact numeric value. -/
theorem numVal_eq_iff (m n : NumVal) :
    m = n ↔ (m.typeTag = n.typeTag ∧ m.toRat = n.toRat) := by
  cases m with
  | vInt a =>
      cases n with
      | vInt b => simp [NumVal.typeTag, NumVal.toRat]
      | vLong b => simp [NumVal.typeTag, NumVal.toRat]
      | vDouble q => simp [NumVal.typeTag, NumVal.toRat]
  | vLong a =>
      cases n with
      | vInt b => simp [NumVal.typeTag, NumVal.toRat]
      | vLong b => simp [NumVal.typeTag, NumVal.toRat]
      | vDouble q => simp [NumVal.typeTag, NumVal.toRat]
  | vDouble q =>
      cases n with
      | vInt b => simp [NumVal.typeTag, NumVal.toRat]
      | vLong b => simp [NumVal.typeTag, NumVal.toRat]
      | vDouble r => simp [NumVal.typeTag, NumVal.toRat]

/-- Re-embedding a numeric scalar keeps it numeric and unchanged. -/
theorem asNum_toBson (n : NumVal) : asNum n.toBson = some n := by
  cases n <;> simp [NumVal.toBson, asNum]

/-- Re-embedding a numeric scalar preserves the type tag. -/
theorem bsonTypeTag_toBson (n : NumVal) : bsonTypeTag n.toBson = n.typeTag := by
  cases n <;> simp [NumVal.toBson, bsonTypeTag, NumVal.typeTag]

/-- Reading back after a prepare-apply round on a present numeric target
yields the promoted sum. -/
theorem readBack_found (operand : NumVal) (s : String) (rest : List String)
    (doc : Document) (v : BsonValue) (e : NumVal)
    (hres : resolvePath (s :: rest) (BsonValue.vObject doc.fields) = Resolved.found v)
    (hnum : asNum v = some e) :
    readBack operand (s :: rest) doc = some (incSum e operand).toBson := by
  have h1 := prepare_found operand (s :: rest) doc v e hres hnum
  have h2 := apply_readBack
    { path := s :: rest, existing := some e, newValue := incSum e operand,
      noOp := decide (incSum e operand = e) } doc s rest rfl (by simp [hres])
  simp [readBack, runApply, h1, h2]

/-- The model's sum is exact on the numeric values it represents. -/
theorem incSum_toRat (e d : NumVal) : (incSum e d).toRat = e.toRat + d.toRat := by
  cases e with
  | vInt a =>
      cases d with
      | vInt b =>
          by_cases hf : fitsInt32 (a + b) = true
          · simp [incSum, hf, NumVal.toRat]
          · simp [incSum, hf, NumVal.toRat]
      | vLong b => simp [incSum, NumVal.toRat]
      | vDouble q => simp [incSum, NumVal.toRat]
  | vLong a =>
      cases d with
      | vInt b => simp [incSum, NumVal.toRat]
      | vLong b => simp [incSum, NumVal.toRat]
      | vDouble q => simp [incSum, NumVal.toRat]
  | vDouble q =>
      cases d with
      | vInt b => simp [incSum, NumVal.toRat]
      | vLong b => simp [incSum, NumVal.toRat]
      | vDouble r => simp [incSum, NumVal.toRat]

/-- Claim C5: for every document whose target field exists with a
non-numeric value, prepare returns a PathTypeConflict error and leaves the
document tree completely unmodified. -/
theorem inc_prepare_non_numeric_fails (operand : NumVal) (p : List String)
    (doc : Document) (v : BsonValue)
    (hres : resolvePath p (BsonValue.vObject doc.fields) = Resolved.found v)
    (hnn : asNum v = none) :
    ModifierInc.prepare operand p doc = (doc, Except.error ModError.pathTypeConflict) := by
  simp [ModifierInc.prepare, hres, hnn]

theorem inc_prepare_non_numeric_fails_witness :
    ModifierInc.prepare (NumVal.vInt 1) ["a"]
        { fields := [("a", BsonValue.vString "x")], inPlaceMode := true } =
      ({ fields := [("a", BsonValue.vString "x")], inPlaceMode := true },
        Except.error ModError.pathTypeConflict) :=
  inc_prepare_non_numeric_fails (NumVal.vInt 1) ["a"] _ (BsonValue.vString "x") rfl rfl

/-- Claim C6: initialize succeeds exactly on 32-bit-integer, 64-bit-integer
and double operands; object, array and string operands fail with
InvalidOperandType, before any document is accessed (initialize never
receives a document). -/
theorem inc_init_operand_validation (v : BsonValue) :
    (ModifierInc.initOk v = true ↔
        (bsonTypeTag v = BsonType.tInt ∨ bsonTypeTag v = BsonType.tLong ∨
          bsonTypeTag v = BsonType.tDouble))
    ∧ ((bsonTypeTag v = BsonType.tObject ∨ bsonTypeTag v = BsonType.tArray ∨
          bsonTypeTag v = BsonType.tString) →
        ModifierInc.init v = Except.error ModError.invalidOperandType) := by
  cases v <;> simp [ModifierInc.initOk, ModifierInc.init, asNum, bsonTypeTag]

theorem inc_init_operand_validation_witness :
    ModifierInc.init (BsonValue.vString "") = Except.error ModError.invalidOperandType :=
  (inc_init_operand_validation (BsonValue.vString "")).2 (Or.inr (Or.inr rfl))

/-- Claim C7: an absent target field takes the operand itself as the new
value, with the operand's type, and no-op is false even for a zero
operand; apply creates the field (the target reads back as the operand and
in-place mode is lost) and log records the assignment at the dotted path. -/
theorem inc_absent_field_creates (operand : NumVal) (s : String) (rest : List String)
    (doc : Document) (lb : LogBuilder)
    (hres : resolvePath (s :: rest) (BsonValue.vObject doc.fields) = Resolved.missing) :
    runPrepare operand (s :: rest) doc =
        Except.ok { path := s :: rest, existing := none, newValue := operand, noOp := false }
    ∧ resolvePath (s :: rest)
        (BsonValue.vObject (ModifierInc.apply
            { path := s :: rest, existing := none, newValue := operand, noOp := false }
            doc).fields) =
        Resolved.found operand.toBson
    ∧ (ModifierInc.apply
          { path := s :: rest, existing := none, newValue := operand, noOp := false }
          doc).isInPlaceModeEnabled = false
    ∧ (ModifierInc.log
          { path := s :: rest, existing := none, newValue := operand, noOp := false }
          lb).setEntries =
        lb.setEntries ++ [(String.intercalate "." (s :: rest), operand.toBson)] := by
  refine ⟨prepare_missing operand _ doc hres, ?_, ?_, rfl⟩
  · exact apply_readBack _ doc s rest rfl (by simp [hres])
  · simp [ModifierInc.apply, Document.isInPlaceModeEnabled]

theorem inc_absent_field_creates_witness :
    resolvePath ["a"] (BsonValue.vObject []) = Resolved.missing
    ∧ runPrepare (NumVal.vInt 1) ["a"] { fields := [], inPlaceMode := true } =
        Except.ok { path := ["a"], existing := none, newValue := NumVal.vInt 1, noOp := false }
    ∧ runApply (NumVal.vInt 1) ["a"] { fields := [], inPlaceMode := true } =
        some { fields := [("a", BsonValue.vInt 1)], inPlaceMode := false }
    ∧ (ModifierInc.log
          { path := ["a"], existing := none, newValue := NumVal.vInt 1, noOp := false }
          ⟨[]⟩).setEntries =
        [("a", BsonValue.vInt 1)] :=
  ⟨rfl,
   (inc_absent_field_creates (NumVal.vInt 1) "a" []
      { fields := [], inPlaceMode := true } ⟨[]⟩ rfl).1,
   rfl, rfl⟩

/-- Claim C1: for a present numeric target, the value computed by prepare
and installed by apply has the type given by the promotion lattice
int32 < int64 < double (the more promoted of the two operand types),
except that two 32-bit integers whose mathematical sum leaves the 32-bit
signed range yield a 64-bit integer (never wrapped, never a double), and a
double existing value always yields a double. -/
theorem inc_promotion_lattice (operand : NumVal) (s : String) (rest : List String)
    (doc : Document) (v : BsonValue) (e : NumVal)
    (hres : resolvePath (s :: rest) (BsonValue.vObject doc.fields) = Resolved.found v)
    (hnum : asNum v = some e) :
    (readBack operand (s :: rest) doc).map bsonTypeTag =
      some (if int32OverflowCase e operand then BsonType.tLong
            else promoted e.typeTag operand.typeTag)
    ∧ (e.typeTag = BsonType.tDouble →
        (readBack operand (s :: rest) doc).map bsonTypeTag = some BsonType.tDouble) := by
  have hrb := readBack_found operand s rest doc v e hres hnum
  constructor
  · rw [hrb]
    simp only [Option.map_some', bsonTypeTag_toBson]
    cases e with
    | vInt a =>
        cases operand with
        | vInt b =>
            by_cases hf : fitsInt32 (a + b) = true
            · simp [incSum, hf, int32OverflowCase, NumVal.typeTag, promoted, typeRank]
            · simp [incSum, hf, int32OverflowCase, NumVal.typeTag, promoted, typeRank]
        | vLong b => simp [incSum, int32OverflowCase, NumVal.typeTag, promoted, typeRank]
        | vDouble q => simp [incSum, int32OverflowCase, NumVal.typeTag, promoted, typeRank]
    | vLong a =>
        cases operand with
        | vInt b => simp [incSum, int32OverflowCase, NumVal.typeTag, promoted, typeRank]
        | vLong b => simp [incSum, int32OverflowCase, NumVal.typeTag, promoted, typeRank]
        | vDouble q => simp [incSum, int32OverflowCase, NumVal.typeTag, promoted, typeRank]
    | vDouble q =>
        cases operand with
        | vInt b => simp [incSum, int32OverflowCase, NumVal.typeTag, promoted, typeRank]
        | vLong b => simp [incSum, int32OverflowCase, NumVal.typeTag, promoted, typeRank]
        | vDouble r => simp [incSum, int32OverflowCase, NumVal.typeTag, promoted, typeRank]
  · intro hdb
    rw [hrb]
    simp only [Option.map_some', bsonTypeTag_toBson]
    cases e with
    | vInt a => simp [NumVal.typeTag] at hdb
    | vLong a => simp [NumVal.typeTag] at hdb
    | vDouble q => cases operand <;> simp [incSum, NumVal.typeTag]

theorem inc_promotion_lattice_witness :
    asNum (BsonValue.vInt 2147483647) = some (NumVal.vInt 2147483647)
    ∧ (readBack (NumVal.vInt 1) ["a"]
          { fields := [("a", BsonValue.vInt 2147483647)], inPlaceMode := true }).map bsonTypeTag =
        some (if int32OverflowCase (NumVal.vInt 2147483647) (NumVal.vInt 1) then BsonType.tLong
              else promoted (NumVal.vInt 2147483647).typeTag (NumVal.vInt 1).typeTag) :=
  ⟨rfl,
   (inc_promotion_lattice (NumVal.vInt 1) "a" []
      { fields := [("a", BsonValue.vInt 2147483647)], inPlaceMode := true }
      (BsonValue.vInt 2147483647) (NumVal.vInt 2147483647) rfl rfl).1⟩

/-- Claim C2 as stated is false on the code: incrementing an int64 field
by a double operand changes the element's type (int64 to double), yet the
document stays in in-place mode, because the encoded sizes agree (8 bytes
each) — exactly what the test `Upcasting.UpcastLongToDouble` asserts. -/
theorem inc_inplace_type_change_counterexample :
    (runApply (NumVal.vDouble 0) ["a"]
        { fields := [("a", BsonValue.vLong 1)], inPlaceMode := true }).map
      (fun d => (d.isInPlaceModeEnabled, d.fields.map (fun kv => (kv.1, bsonTypeTag kv.2)))) =
      some (true, [("a", BsonType.tDouble)])
    ∧ bsonTypeTag (BsonValue.vLong 1) ≠ BsonType.tDouble :=
  ⟨rfl, by decide⟩

/-- Claim C2 amended: after applying an increment to a present numeric
target, the document is in in-place mode exactly when it was before and
the final element's encoded size equals the prior element's; the type may
change when the sizes agree (int64 to double stays in place), while the
size-changing promotions — int32 to int64 (including the overflow spill)
and int32 to double — disable in-place mode. -/
theorem inc_inplace_iff_size (operand : NumVal) (s : String) (rest : List String)
    (doc : Document) (v : BsonValue) (e : NumVal)
    (hres : resolvePath (s :: rest) (BsonValue.vObject doc.fields) = Resolved.found v)
    (hnum : asNum v = some e) :
    (runApply operand (s :: rest) doc).map Document.isInPlaceModeEnabled =
      some (doc.isInPlaceModeEnabled && (numSize e == numSize (incSum e operand))) := by
  have h1 := prepare_found operand (s :: rest) doc v e hres hnum
  simp [runApply, h1, ModifierInc.apply, Document.isInPlaceModeEnabled,
        inPlaceCompatible_iff_size e (incSum e operand) (incSum_rank_mono e operand)]

theorem inc_inplace_iff_size_witness :
    (runApply (NumVal.vInt 1) ["a"]
        { fields := [("a", BsonValue.vInt 2)], inPlaceMode := true }).map
      Document.isInPlaceModeEnabled =
      some (true && (numSize (NumVal.vInt 2) == numSize (incSum (NumVal.vInt 2) (NumVal.vInt 1)))) :=
  inc_inplace_iff_size (NumVal.vInt 1) "a" []
    { fields := [("a", BsonValue.vInt 2)], inPlaceMode := true }
    (BsonValue.vInt 2) (NumVal.vInt 2) rfl rfl

/-- Claim C3: for a present numeric target, prepare reports no-op exactly
when the computed sum is both numerically equal to and type-identical to
the existing value (so an integer zero of a wider type, or a double zero,
is not a no-op on an int32 field: the type changes). -/
theorem inc_noop_iff (operand : NumVal) (p : List String) (doc : Document)
    (v : BsonValue) (e : NumVal) (st : PrepState)
    (hres : resolvePath p (BsonValue.vObject doc.fields) = Resolved.found v)
    (hnum : asNum v = some e)
    (hprep : runPrepare operand p doc = Except.ok st) :
    st.noOp = true ↔
      ((incSum e operand).typeTag = e.typeTag ∧ (incSum e operand).toRat = e.toRat) := by
  rw [prepare_found operand p doc v e hres hnum] at hprep
  injection hprep with h
  rw [← h]
  simp only [decide_eq_true_eq]
  exact numVal_eq_iff (incSum e operand) e

theorem inc_noop_iff_witness :
    decide (incSum (NumVal.vInt 1) (NumVal.vInt 0) = NumVal.vInt 1) = true :=
  (inc_noop_iff (NumVal.vInt 0) ["a"]
      { fields := [("a", BsonValue.vInt 1)], inPlaceMode := true }
      (BsonValue.vInt 1) (NumVal.vInt 1) _ rfl rfl rfl).mpr ⟨rfl, rfl⟩

/-- Claim C4: after a successful prepare, log appends one `$set` entry
keyed by the target's full dotted path whose value (and hence type) is the
prepared final value — which is exactly what the field reads back as after
apply, so the logged value matches the post-apply value even when apply is
never called: log reuses the value computed by prepare. -/
theorem inc_log_records_final_value (operand : NumVal) (s : String) (rest : List String)
    (doc : Document) (st : PrepState) (lb : LogBuilder)
    (hprep : runPrepare operand (s :: rest) doc = Except.ok st) :
    (ModifierInc.log st lb).setEntries =
        lb.setEntries ++ [(String.intercalate "." (s :: rest), st.newValue.toBson)]
    ∧ resolvePath (s :: rest)
        (BsonValue.vObject (ModifierInc.apply st doc).fields) =
        Resolved.found st.newValue.toBson := by
  cases hres : resolvePath (s :: rest) (BsonValue.vObject doc.fields) with
  | found v =>
      cases hnum : asNum v with
      | some e =>
          rw [prepare_found operand _ doc v e hres hnum] at hprep
          injection hprep with h
          subst h
          exact ⟨rfl, apply_readBack _ doc s rest rfl (by simp [hres])⟩
      | none =>
          simp [runPrepare, ModifierInc.prepare, hres, hnum] at hprep
  | missing =>
      rw [prepare_missing operand _ doc hres] at hprep
      injection hprep with h
      subst h
      exact ⟨rfl, apply_readBack _ doc s rest rfl (by simp [hres])⟩
  | conflict =>
      simp [runPrepare, ModifierInc.prepare, hres] at hprep

theorem inc_log_records_final_value_witness :
    (ModifierInc.log
        { path := ["a"], existing := some (NumVal.vInt 2),
          newValue := NumVal.vInt 3, noOp := false } ⟨[]⟩).setEntries =
      [] ++ [(String.intercalate "." ["a"], (NumVal.vInt 3).toBson)]
    ∧ resolvePath ["a"] (BsonValue.vObject (ModifierInc.apply
        { path := ["a"], existing := some (NumVal.vInt 2),
          newValue := NumVal.vInt 3, noOp := false }
        { fields := [("a", BsonValue.vInt 2)], inPlaceMode := true }).fields) =
      Resolved.found (NumVal.vInt 3).toBson :=
  inc_log_records_final_value (NumVal.vInt 1) "a" []
    { fields := [("a", BsonValue.vInt 2)], inPlaceMode := true } _ ⟨[]⟩ rfl


/-- Claim C8: in the int32/int64 domain the round trip is exact: applying
the increment and reading the target back yields a numeric value equal to
the mathematical sum existing + operand, with no wrap or precision loss
(in particular INT32_MAX incremented by 1 reads back as INT32_MAX + 1,
typed int64 — see the witness). -/
theorem inc_int_domain_exact_sum (operand : NumVal) (s : String) (rest : List String)
    (doc : Document) (v : BsonValue) (e : NumVal)
    (hres : resolvePath (s :: rest) (BsonValue.vObject doc.fields) = Resolved.found v)
    (hnum : asNum v = some e)
    (he : isIntTag e = true) (hd : isIntTag operand = true) :
    (readBack operand (s :: rest) doc).bind numRatOfB = some (e.toRat + operand.toRat) := by
  rw [readBack_found operand s rest doc v e hres hnum]
  simp [numRatOfB, asNum_toBson, incSum_toRat]

theorem inc_int_domain_exact_sum_witness :
    readBack (NumVal.vInt 1) ["a"]
        { fields := [("a", BsonValue.vInt 2147483647)], inPlaceMode := true } =
      some (BsonValue.vLong 2147483648)
    ∧ (readBack (NumVal.vInt 1) ["a"]
          { fields := [("a", BsonValue.vInt 2147483647)], inPlaceMode := true }).bind numRatOfB =
        some ((NumVal.vInt 2147483647).toRat + (NumVal.vInt 1).toRat) :=
  ⟨rfl,
   inc_int_domain_exact_sum (NumVal.vInt 1) "a" []
     { fields := [("a", BsonValue.vInt 2147483647)], inPlaceMode := true }
     (BsonValue.vInt 2147483647) (NumVal.vInt 2147483647) rfl rfl rfl rfl⟩

/-- Claim C9: a single modifier instance is stateless across documents:
one prepare/apply round's outcome depends only on the operand and the
document — never on the transient state left by an earlier round — so two
documents with equal initial contents produce identical final documents. -/
theorem inc_modifier_reuse_stateless (operand : NumVal)
    (st1 st2 : Option PrepState) (p : List String) (d1 d2 : Document)
    (h : d1 = d2) :
    (runOn { operand := operand, lastPrepared := st1 } p d1).2 =
      (runOn { operand := operand, lastPrepared := st2 } p d2).2 := by
  subst h
  cases hp : runPrepare operand p d1 with
  | ok st => simp [runOn, prepareM, applyM, hp]
  | error e => simp [runOn, prepareM, applyM, hp]

theorem inc_modifier_reuse_stateless_witness :
    (runOn { operand := NumVal.vInt 1,
             lastPrepared := some { path := ["a"], existing := some (NumVal.vInt 1),
                                    newValue := NumVal.vInt 2, noOp := false } } ["a"]
        { fields := [("a", BsonValue.vInt 1)], inPlaceMode := true }).2 =
      (runOn { operand := NumVal.vInt 1, lastPrepared := none } ["a"]
        { fields := [("a", BsonValue.vInt 1)], inPlaceMode := true }).2
    ∧ (runOn { operand := NumVal.vInt 1, lastPrepared := none } ["a"]
        { fields := [("a", BsonValue.vInt 1)], inPlaceMode := true }).2 =
      { fields := [("a", BsonValue.vInt 2)], inPlaceMode := true } :=
  ⟨inc_modifier_reuse_stateless (NumVal.vInt 1)
     (some { path := ["a"], existing := some (NumVal.vInt 1),
             newValue := NumVal.vInt 2, noOp := false }) none ["a"] _ _ rfl,
   rfl⟩

/-- Claim C10: an int32 target and int32 operand whose mathematical sum
falls below INT32_MIN spill to int64 with the exact sum — underflow is
symmetric to overflow: never wrapped, never promoted to double, and the
mutation is not in place. -/
theorem inc_underflow_spills_to_long (s : String) (rest : List String)
    (doc : Document) (a b : Int)
    (hres : resolvePath (s :: rest) (BsonValue.vObject doc.fields) =
      Resolved.found (BsonValue.vInt a))
    (hlow : a + b < int32Min) :
    readBack (NumVal.vInt b) (s :: rest) doc = some (BsonValue.vLong (a + b))
    ∧ (runApply (NumVal.vInt b) (s :: rest) doc).map Document.isInPlaceModeEnabled =
        some false := by
  have hlow2 : a + b < -2147483648 := by simpa [int32Min] using hlow
  have hfits : fitsInt32 (a + b) = false := by
    simp only [fitsInt32, int32Min, int32Max, decide_eq_false_iff_not, not_and, not_le]
    omega
  have hsum : incSum (NumVal.vInt a) (NumVal.vInt b) = NumVal.vLong (a + b) := by
    simp [incSum, hfits]
  constructor
  · rw [readBack_found (NumVal.vInt b) s rest doc _ (NumVal.vInt a) hres rfl, hsum]
    rfl
  · have h1 := prepare_found (NumVal.vInt b) (s :: rest) doc _ (NumVal.vInt a) hres rfl
    simp [runApply, h1, ModifierInc.apply, Document.isInPlaceModeEnabled, hsum,
          ModifierInc.inPlaceCompatible, NumVal.typeTag, isWidening, typeRank, numSize]

theorem inc_underflow_spills_to_long_witness :
    readBack (NumVal.vInt (-1)) ["a"]
        { fields := [("a", BsonValue.vInt (-2147483648))], inPlaceMode := true } =
      some (BsonValue.vLong (-2147483649))
    ∧ (runApply (NumVal.vInt (-1)) ["a"]
          { fields := [("a", BsonValue.vInt (-2147483648))], inPlaceMode := true }).map
        Document.isInPlaceModeEnabled = some false := by
  have h := inc_underflow_spills_to_long "a" []
    { fields := [("a", BsonValue.vInt (-2147483648))], inPlaceMode := true }
    (-2147483648) (-1) rfl (by decide)
  simpa using h
